import Mathlib

/-!
Shallow embedding of the AHN change-detection core of `ahninpainter`
(`src/utils/compare.py`, with its near-duplicate `src/compare.py`, and
`src/utils/_utils.py`).

A raster is modelled as a flat row-major band of rational pixel values
together with its GDAL dimensions and optional nodata value.  A Python
`None` return is `Option.none`; an uncaught exception (the dimension
assertion in `difference`, the `ValueError` in the dispatcher loop) is
the outer `Option.none` of the function that can raise it.
-/

set_option autoImplicit false

/-- A GDAL raster as the comparison code sees it: `RasterXSize`,
`RasterYSize`, band 1 read as a flat array, and `GetNoDataValue()`. -/
structure Raster where
  xsize : Nat
  ysize : Nat
  band : List ℚ
  nodataValue : Option ℚ
deriving Repr, DecidableEq

/-- `pixel == nodata_value` for a single pixel; `arr == None` is
elementwise `False` in numpy, hence the `none` branch. -/
def isNodata (nd : Option ℚ) (v : ℚ) : Bool :=
  match nd with
  | none => false
  | some w => decide (v = w)

/-- `np.bitwise_or(array_reference == nodata_reference, array_target == nodata_target)`,
pixelwise over the two bands. -/
def nodataMask (r t : Raster) : List Bool :=
  (r.band.zip t.band).map
    (fun p => isNodata r.nodataValue p.1 || isNodata t.nodataValue p.2)

/-- `array[nodata_mask] = 0`: zero an array at the masked positions. -/
def zeroWhere (mask : List Bool) (xs : List ℚ) : List ℚ :=
  (mask.zip xs).map (fun p => if p.1 then 0 else p.2)

/-- `np.absolute(array_target - array_reference)`, pixelwise. -/
def absDiff (ref tgt : List ℚ) : List ℚ :=
  (ref.zip tgt).map (fun p => |p.2 - p.1|)

/-- The band arithmetic of `RasterComparison.difference`: build the
union nodata mask, zero both bands at it, return the absolute
difference. -/
def diffArrays (r t : Raster) : List ℚ :=
  let mask := nodataMask r t
  absDiff (zeroWhere mask r.band) (zeroWhere mask t.band)

/-- `RasterXSize == 1 and RasterYSize == 1` ("empty tif" legacy case). -/
def isDegenerate (r : Raster) : Bool :=
  r.xsize == 1 && r.ysize == 1

/-- `np.mean`. -/
def listMean (a : List ℚ) : ℚ := a.sum / (a.length : ℚ)

/-- `np.max` (the empty case never arises for a real raster band). -/
def listMax : List ℚ → ℚ
  | [] => 0
  | x :: xs => xs.foldl max x

/-- `np.sum(difference_array > threshold)`: the number of pixels
strictly above `t`. -/
def countLarger (a : List ℚ) (t : ℚ) : Nat :=
  a.countP (fun x => decide (t < x))

/-- The `metrics` mapping from the config: a key is configured iff the
field is `some`.  `count_larger_than` and `percentage_larger_than`
carry `(value_threshold, count/fraction_threshold)` pairs. -/
structure Metrics where
  mean : Option ℚ
  maxima : Option ℚ
  sum : Option ℚ
  count_larger_than : Option (ℚ × ℚ)
  percentage_larger_than : Option (ℚ × ℚ)
deriving Repr, DecidableEq

/-- The `changed_` dict built by `RasterComparison.changed`: one entry
per configured metric. -/
structure Verdicts where
  mean : Option Bool
  maxima : Option Bool
  sum : Option Bool
  count_larger_than : Option Bool
  percentage_larger_than : Option Bool
deriving Repr, DecidableEq

/-- `True in changed_.values()`. -/
def Verdicts.anyTrue (v : Verdicts) : Bool :=
  v.mean == some true || v.maxima == some true || v.sum == some true ||
    v.count_larger_than == some true || v.percentage_larger_than == some true

namespace RasterComparison

/-- `RasterComparison.difference`.  The target argument is `none` when
`path_target.is_file()` is false.  Result: `none` = the dimension
assertion fired (uncaught `AssertionError`); `some none` = Python
`None` (no matching target); `some (some a)` = the difference array
(`[0]` for the degenerate 1×1 "empty tif" short-circuit). -/
def difference (reference : Raster) (target : Option Raster) :
    Option (Option (List ℚ)) :=
  match target with
  | none => some none
  | some t =>
    if isDegenerate reference || isDegenerate t then
      some (some [0])
    else if reference.xsize == t.xsize && reference.ysize == t.ysize then
      some (some (diffArrays reference t))
    else
      none

/-- The metric evaluations of `RasterComparison.changed` on an actual
difference array. -/
def changedOf (m : Metrics) (a : List ℚ) : Verdicts where
  mean := m.mean.map (fun th => decide (listMean a > th))
  maxima := m.maxima.map (fun th => decide (listMax a > th))
  sum := m.sum.map (fun th => decide (a.sum > th))
  count_larger_than :=
    m.count_larger_than.map (fun th => decide ((countLarger a th.1 : ℚ) > th.2))
  percentage_larger_than :=
    m.percentage_larger_than.map
      (fun th => decide ((countLarger a th.1 : ℚ) / (a.length : ℚ) > th.2))

/-- `RasterComparison.changed`: `None` in, `None` out; otherwise the
per-metric verdict dict. -/
def changed (m : Metrics) (difference_array : Option (List ℚ)) :
    Option Verdicts :=
  difference_array.map (changedOf m)

/-- The tail of `RasterComparison.compare`: from the difference result
to the `(flag, changed_)` pair (`-1` no matching, `1` changed, `0`
unchanged). -/
def classifyResult (m : Metrics) (difference_array : Option (List ℚ)) :
    Int × Option Verdicts :=
  match changed m difference_array with
  | none => (-1, none)
  | some v => if v.anyTrue then (1, some v) else (0, none)

/-- `RasterComparison.compare` without the stem bookkeeping; `none`
propagates the dimension assertion of `difference`. -/
def compare (m : Metrics) (reference : Raster) (target : Option Raster) :
    Option (Int × Option Verdicts) :=
  (difference reference target).map (classifyResult m)

end RasterComparison

/-- `nodata` from `src/utils/_utils.py`, verbatim: `has_nodata = value
in array`; the mask starts all-false and, when `has_nodata`, becomes
`value != array` elementwise. -/
def nodata (image : Raster) : Bool × List Bool :=
  let value := image.nodataValue
  let array := image.band
  let has_nodata :=
    match value with
    | none => false
    | some v => array.contains v
  let mask_nodata :=
    if has_nodata then
      array.map (fun x => match value with
        | none => true
        | some v => decide (¬ x = v))
    else
      array.map (fun _ => false)
  (has_nodata, mask_nodata)

/-! ### The dispatcher `multi_run` -/

/-- The run's view of the two directory trees: the enumerated relative
paths under the reference and target roots, the raster each reference
path opens to, the raster the corresponding target path opens to
(`none` = the target file does not exist), and the `Path.stem` of each
relative path. -/
structure World where
  refPaths : List String
  tgtPaths : List String
  refRaster : String → Raster
  tgtRaster : String → Option Raster
  stem : String → String

/-- One worker task: `raster_comparison.compare(args)` for the pair of
paths sharing relative path `p`, yielding `(flag, changed_, stem)`. -/
def processTile (m : Metrics) (w : World) (p : String) :
    Option (Int × Option Verdicts × String) :=
  (RasterComparison.compare m (w.refRaster p) (w.tgtRaster p)).map
    (fun q => (q.1, q.2, w.stem p))

/-- Run every task; `none` as soon as one task's assertion aborts. -/
def processAll (m : Metrics) (w : World) :
    List String → Option (List (Int × Option Verdicts × String))
  | [] => some []
  | p :: ps =>
    match processTile m w p, processAll m w ps with
    | some r, some rs => some (r :: rs)
    | _, _ => none

/-- The aggregator's mutable state: the `counter`, the stems written to
`changed.txt`, and the `Non-existing target` warnings. -/
structure AggState where
  counter : Nat
  changedList : List String
  unmatched : List String
deriving Repr, DecidableEq

/-- One iteration of the collection loop over `imap_unordered` results:
`-1` warns, `1` writes the stem and increments the counter, `0` does
nothing, anything else raises `ValueError` (= `none`). -/
def stepRes (acc : AggState) (r : Int × Option Verdicts × String) :
    Option AggState :=
  if r.1 = -1 then some { acc with unmatched := acc.unmatched ++ [r.2.2] }
  else if r.1 = 1 then
    some { acc with counter := acc.counter + 1,
                    changedList := acc.changedList ++ [r.2.2] }
  else if r.1 = 0 then some acc
  else none

/-- Fold the collection loop over a list of delivered results. -/
def aggregateResults : AggState → List (Int × Option Verdicts × String) →
    Option AggState
  | acc, [] => some acc
  | acc, r :: rs =>
    match stepRes acc r with
    | some acc2 => aggregateResults acc2 rs
    | none => none

/-- The whole aggregation: the collection loop, then every target-only
stem is written to `changed.txt` and counted. -/
def runAggregate (rs : List (Int × Option Verdicts × String))
    (targetsOnly : List String) : Option AggState :=
  match aggregateResults ⟨0, [], []⟩ rs with
  | none => none
  | some acc =>
    some { acc with counter := acc.counter + targetsOnly.length,
                    changedList := acc.changedList ++ targetsOnly }

/-- `path_target not in targets_match`, then `.stem`: the target-only
tiles, unconditionally changed. -/
def targetsOnlyStems (w : World) : List String :=
  (w.tgtPaths.filter (fun p => ! w.refPaths.contains p)).map w.stem

/-- `multi_run`: run all tasks, aggregate, report `(final state, total
tile-pair count)`; `none` when a dimension assertion aborts the run. -/
def multi_run (m : Metrics) (w : World) : Option (AggState × Nat) :=
  match processAll m w w.refPaths with
  | none => none
  | some rs =>
    match runAggregate rs (targetsOnlyStems w) with
    | none => none
    | some acc => some (acc, w.refPaths.length)

/-! ### Helper lemmas about `difference` -/

/-- Concrete metric config for the C2 witness. -/
def M2 : Metrics := ⟨some 1, some 2, some 10, some (3, 1), some (3, 2)⟩

/-- Reference and target agree at every pixel position that is nodata
in neither raster. -/
def pixelIdenticalOutsideNodata (r t : Raster) : Prop :=
  ∀ p ∈ r.band.zip t.band,
    (isNodata r.nodataValue p.1 || isNodata t.nodataValue p.2) = false → p.1 = p.2

instance (r t : Raster) : Decidable (pixelIdenticalOutsideNodata r t) :=
  List.decidableBAll _ _

/-- Every configured threshold is nonnegative (both components for the
pair-valued metrics). -/
def Metrics.allNonneg (m : Metrics) : Bool :=
  (match m.mean with | none => true | some th => decide (0 ≤ th)) &&
  (match m.maxima with | none => true | some th => decide (0 ≤ th)) &&
  (match m.sum with | none => true | some th => decide (0 ≤ th)) &&
  (match m.count_larger_than with
    | none => true | some th => decide (0 ≤ th.1) && decide (0 ≤ th.2)) &&
  (match m.percentage_larger_than with
    | none => true | some th => decide (0 ≤ th.1) && decide (0 ≤ th.2))

/-- Some scalar metric (mean, maxima or sum) is configured with a
negative threshold. -/
def Metrics.hasNegScalar (m : Metrics) : Bool :=
  (match m.mean with | none => false | some th => decide (th < 0)) ||
  (match m.maxima with | none => false | some th => decide (th < 0)) ||
  (match m.sum with | none => false | some th => decide (th < 0))

/-- Concrete data for the C7 witness. -/
def M7 : Metrics := ⟨some 0, some 1, none, some (2, 3), none⟩

/-- Metric configs for the C10 witness. -/
def M10a : Metrics := ⟨some 1, none, none, some (0, 0), none⟩

/-- Second metric config for the C10 witness, with negative mean. -/
def M10b : Metrics := ⟨some (-2), none, none, none, none⟩

/-- The flags `compare` may legally deliver. -/
def flagOK (i : Int) : Bool := i == -1 || i == 0 || i == 1

/-- Stems of delivered results flagged Changed. -/
def changedStems (rs : List (Int × Option Verdicts × String)) : List String :=
  (rs.filter (fun r => r.1 == 1)).map (fun r => r.2.2)

/-- Stems of delivered results flagged Unmatched. -/
def unmatchedStems (rs : List (Int × Option Verdicts × String)) : List String :=
  (rs.filter (fun r => r.1 == -1)).map (fun r => r.2.2)

/-- Empty metric configuration. -/
def Mnil : Metrics := ⟨none, none, none, none, none⟩

/-- Stems and relative paths used by the dispatcher witnesses. -/
def pA : String := "a/1"

/-- Second witness path. -/
def pB : String := "b/2"

/-- Third witness path. -/
def pC : String := "c/3"

/-- Fourth witness path. -/
def pD : String := "d/4"

/-- World for the C3 witness: one reference tile, no target file. -/
def W3 : World := ⟨[pA], [], fun _ => ⟨1, 1, [0], none⟩, fun _ => none, fun p => p⟩

/-- World for the C4 witness: reference `pA` with no target file on
disk, plus a target-only tile `pB`. -/
def W4 : World := ⟨[pA], [pA, pB], fun _ => ⟨1, 1, [0], none⟩, fun _ => none, fun p => p⟩

/-- The summary the C4 witness run produces. -/
def S4 : AggState × Nat := (⟨1, [pB], [pA]⟩, 1)

/-- Delivered results for the C5 witness. -/
def RS1 : List (Int × Option Verdicts × String) :=
  [(1, none, pA), (-1, none, pB), (0, none, pC)]

/-- The same results delivered in another completion order. -/
def RS2 : List (Int × Option Verdicts × String) :=
  [(0, none, pC), (1, none, pA), (-1, none, pB)]

/-- `difference` cannot abort for this pair: the target is missing, a
raster is degenerate, or the dimensions agree. -/
def noMismatch (r : Raster) (t : Option Raster) : Bool :=
  match t with
  | none => true
  | some t =>
    isDegenerate r || isDegenerate t ||
      (r.xsize == t.xsize && r.ysize == t.ysize)

/-- Mismatched 2×2 reference for the C6 witness. -/
def RA : Raster := ⟨2, 2, [1, 2, 3, 4], none⟩

/-- Mismatched 3×2 target for the C6 witness. -/
def RB : Raster := ⟨3, 2, [1, 2, 3, 4, 5, 6], none⟩

/-- World whose only pair has mismatching dimensions. -/
def WBAD : World := ⟨[pA], [], fun _ => RA, fun _ => some RB, fun p => p⟩

/-- World whose only pair is well-matched. -/
def WOK : World := ⟨[pA], [pA], fun _ => RA, fun _ => some RA, fun p => p⟩

theorem difference_degenerate (r t : Raster)
    (h : (isDegenerate r || isDegenerate t) = true) :
    RasterComparison.difference r (some t) = some (some [0]) := by
  simp [RasterComparison.difference, h]

theorem difference_eq_dims (r t : Raster)
    (hdr : isDegenerate r = false) (hdt : isDegenerate t = false)
    (hx : r.xsize = t.xsize) (hy : r.ysize = t.ysize) :
    RasterComparison.difference r (some t) = some (some (diffArrays r t)) := by
  simp [RasterComparison.difference, hdr, hdt, hx, hy]

theorem difference_mismatch (r t : Raster)
    (hdr : isDegenerate r = false) (hdt : isDegenerate t = false)
    (hne : r.xsize ≠ t.xsize ∨ r.ysize ≠ t.ysize) :
    RasterComparison.difference r (some t) = none := by
  rcases hne with h | h <;>
    simp [RasterComparison.difference, hdr, hdt, h]

/-- Masking, zeroing and absolute differencing fuse into one
positionwise pass, for any pairwise mask function `g`. -/
theorem absDiff_zeroWhere_map (g : ℚ × ℚ → Bool) : ∀ (xs ys : List ℚ),
    absDiff (zeroWhere ((xs.zip ys).map g) xs) (zeroWhere ((xs.zip ys).map g) ys) =
      (xs.zip ys).map (fun p => if g p then 0 else |p.2 - p.1|) := by
  intro xs
  induction xs with
  | nil => intro ys; rfl
  | cons x xs ih =>
    intro ys
    cases ys with
    | nil => rfl
    | cons y ys =>
      simp only [List.zip_cons_cons, List.map_cons, zeroWhere, absDiff] at ih ⊢
      refine congrArg₂ List.cons ?_ (ih ys)
      by_cases hb : g (x, y) = true <;> simp [hb]

/-- Closed positionwise form of the mask-zero-subtract pipeline. -/
theorem diffArrays_eq (r t : Raster) :
    diffArrays r t = (r.band.zip t.band).map
      (fun p => if (isNodata r.nodataValue p.1 || isNodata t.nodataValue p.2)
        then 0 else |p.2 - p.1|) :=
  absDiff_zeroWhere_map
    (fun p => isNodata r.nodataValue p.1 || isNodata t.nodataValue p.2)
    r.band t.band

/-- Entry `i` of the difference array, given both pixels. -/
theorem diffArrays_get (r t : Raster) (i : ℕ) (vr vt : ℚ)
    (hr : r.band.get? i = some vr) (ht : t.band.get? i = some vt) :
    (diffArrays r t).get? i = some
      (if (isNodata r.nodataValue vr || isNodata t.nodataValue vt)
        then 0 else |vt - vr|) := by
  rw [diffArrays_eq, List.get?_map,
    (List.get?_zip_eq_some r.band t.band (vr, vt) i).mpr ⟨hr, ht⟩]
  rfl

/-- Entry `i` of a zeroed band, given the mask bit and the pixel. -/
theorem zeroWhere_get (mask : List Bool) (xs : List ℚ) (i : ℕ) (b : Bool) (x : ℚ)
    (hm : mask.get? i = some b) (hx : xs.get? i = some x) :
    (zeroWhere mask xs).get? i = some (if b then 0 else x) := by
  rw [zeroWhere, List.get?_map,
    (List.get?_zip_eq_some mask xs (b, x) i).mpr ⟨hm, hx⟩]
  rfl

/-- Entry `i` of the union nodata mask. -/
theorem nodataMask_get (r t : Raster) (i : ℕ) (vr vt : ℚ)
    (hr : r.band.get? i = some vr) (ht : t.band.get? i = some vt) :
    (nodataMask r t).get? i =
      some (isNodata r.nodataValue vr || isNodata t.nodataValue vt) := by
  rw [nodataMask, List.get?_map,
    (List.get?_zip_eq_some r.band t.band (vr, vt) i).mpr ⟨hr, ht⟩]
  rfl

/-- C1: for a matched, equal-dimension, non-degenerate raster pair,
`difference` reaches the band arithmetic, zeroes every union-nodata
pixel in both input arrays, and that pixel contributes `0` to the
returned absolute-difference array whatever the other raster held
there. -/
theorem C1_nodata_pixels_zeroed (r t : Raster) (i : ℕ) (vr vt : ℚ)
    (hdr : isDegenerate r = false) (hdt : isDegenerate t = false)
    (hx : r.xsize = t.xsize) (hy : r.ysize = t.ysize)
    (hr : r.band.get? i = some vr) (ht : t.band.get? i = some vt)
    (hnd : (isNodata r.nodataValue vr || isNodata t.nodataValue vt) = true) :
    RasterComparison.difference r (some t) = some (some (diffArrays r t)) ∧
    (zeroWhere (nodataMask r t) r.band).get? i = some 0 ∧
    (zeroWhere (nodataMask r t) t.band).get? i = some 0 ∧
    (diffArrays r t).get? i = some 0 := by
  have hm := nodataMask_get r t i vr vt hr ht
  rw [hnd] at hm
  refine ⟨difference_eq_dims r t hdr hdt hx hy, ?_, ?_, ?_⟩
  · rw [zeroWhere_get (nodataMask r t) r.band i true vr hm hr]; rfl
  · rw [zeroWhere_get (nodataMask r t) t.band i true vt hm ht]; rfl
  · rw [diffArrays_get r t i vr vt hr ht, hnd]; rfl

/-- C1 witness: a 2×1 pair where pixel 0 is nodata in the reference
(value 9, reference nodata 9) while the target holds 7 there. -/
theorem C1_nodata_pixels_zeroed_witness :
    RasterComparison.difference ⟨2, 1, [9, 5], some 9⟩
        (some ⟨2, 1, [7, 5], none⟩) =
      some (some (diffArrays ⟨2, 1, [9, 5], some 9⟩ ⟨2, 1, [7, 5], none⟩)) ∧
    (zeroWhere (nodataMask ⟨2, 1, [9, 5], some 9⟩ ⟨2, 1, [7, 5], none⟩)
        (⟨2, 1, [9, 5], some 9⟩ : Raster).band).get? 0 = some 0 ∧
    (zeroWhere (nodataMask ⟨2, 1, [9, 5], some 9⟩ ⟨2, 1, [7, 5], none⟩)
        (⟨2, 1, [7, 5], none⟩ : Raster).band).get? 0 = some 0 ∧
    (diffArrays ⟨2, 1, [9, 5], some 9⟩ ⟨2, 1, [7, 5], none⟩).get? 0 = some 0 :=
  C1_nodata_pixels_zeroed ⟨2, 1, [9, 5], some 9⟩ ⟨2, 1, [7, 5], none⟩ 0 9 7
    (by decide) (by decide) rfl rfl rfl rfl (by decide)

/-- C8: when either raster is the degenerate 1×1 "empty tif",
`difference` short-circuits to the single-element zero array, for
arbitrary bands, nodata values, and (possibly mismatching) dimensions
of the other raster. -/
theorem C8_degenerate_short_circuit (r t : Raster)
    (h : (isDegenerate r || isDegenerate t) = true) :
    RasterComparison.difference r (some t) = some (some [0]) :=
  difference_degenerate r t h

/-- C8 witness: a 1×1 reference against a 3×2 target whose dimensions
do not match and whose band would otherwise matter. -/
theorem C8_degenerate_short_circuit_witness :
    (isDegenerate (⟨1, 1, [4], some 4⟩ : Raster) ||
      isDegenerate (⟨3, 2, [1, 2, 3, 4, 5, 6], some 1⟩ : Raster)) = true ∧
    RasterComparison.difference ⟨1, 1, [4], some 4⟩
      (some ⟨3, 2, [1, 2, 3, 4, 5, 6], some 1⟩) = some (some [0]) :=
  ⟨by decide, C8_degenerate_short_circuit ⟨1, 1, [4], some 4⟩
    ⟨3, 2, [1, 2, 3, 4, 5, 6], some 1⟩ (by decide)⟩

/-- C9: evaluating `nodata` at a band `[5, 3]` with nodata value `3`.
The `has_nodata` flag is `true` as specified, but the returned mask is
`value != array`, i.e. `true` at the NON-nodata pixel `5` and `false`
at the nodata pixel `3` — the polarity opposite to the function's own
docstring ("mask of no-data pixels") and to the specification. -/
theorem C9_nodata_mask_inverted :
    nodata ⟨2, 1, [5, 3], some 3⟩ = (true, [true, false]) ∧
    (⟨2, 1, [5, 3], some 3⟩ : Raster).band.get? 1 = some 3 ∧
    (⟨2, 1, [5, 3], some 3⟩ : Raster).nodataValue = some 3 ∧
    (nodata ⟨2, 1, [5, 3], some 3⟩).2.get? 1 = some false ∧
    (nodata ⟨2, 1, [5, 3], some 3⟩).2.get? 0 = some true ∧
    nodata ⟨2, 1, [5, 7], none⟩ = (false, [false, false]) := by
  decide

/-! ### Metric classification -/

/-- C2: on an actual (non-sentinel) difference array the verdict dict
holds exactly the configured metrics; every verdict is its statistic
strictly compared (`>`) against its threshold, equality yielding
`false`; and the tile is flagged Changed (`1`) iff some verdict is
`true`, which `compare` forwards for any raster pair producing this
array. -/
theorem C2_metric_verdicts (m : Metrics) (a : List ℚ) (h : a ≠ []) :
    RasterComparison.changed m (some a) = some (RasterComparison.changedOf m a) ∧
    ((RasterComparison.classifyResult m (some a)).1 = 1 ↔
      (RasterComparison.changedOf m a).anyTrue = true) ∧
    ((RasterComparison.changedOf m a).mean.isSome = m.mean.isSome ∧
     (RasterComparison.changedOf m a).maxima.isSome = m.maxima.isSome ∧
     (RasterComparison.changedOf m a).sum.isSome = m.sum.isSome ∧
     (RasterComparison.changedOf m a).count_larger_than.isSome =
       m.count_larger_than.isSome ∧
     (RasterComparison.changedOf m a).percentage_larger_than.isSome =
       m.percentage_larger_than.isSome) ∧
    (∀ th, m.mean = some th →
      ((RasterComparison.changedOf m a).mean = some true ↔ listMean a > th)) ∧
    (∀ th, m.maxima = some th →
      ((RasterComparison.changedOf m a).maxima = some true ↔ listMax a > th)) ∧
    (∀ th, m.sum = some th →
      ((RasterComparison.changedOf m a).sum = some true ↔ a.sum > th)) ∧
    (∀ th, m.count_larger_than = some th →
      ((RasterComparison.changedOf m a).count_larger_than = some true ↔
        (countLarger a th.1 : ℚ) > th.2)) ∧
    (∀ th, m.percentage_larger_than = some th →
      ((RasterComparison.changedOf m a).percentage_larger_than = some true ↔
        (countLarger a th.1 : ℚ) / (a.length : ℚ) > th.2)) ∧
    (∀ th, m.mean = some th → listMean a = th →
      (RasterComparison.changedOf m a).mean = some false) ∧
    (∀ th, m.maxima = some th → listMax a = th →
      (RasterComparison.changedOf m a).maxima = some false) ∧
    (∀ th, m.sum = some th → a.sum = th →
      (RasterComparison.changedOf m a).sum = some false) ∧
    (∀ th, m.count_larger_than = some th → (countLarger a th.1 : ℚ) = th.2 →
      (RasterComparison.changedOf m a).count_larger_than = some false) ∧
    (∀ th, m.percentage_larger_than = some th →
      (countLarger a th.1 : ℚ) / (a.length : ℚ) = th.2 →
      (RasterComparison.changedOf m a).percentage_larger_than = some false) ∧
    (∀ (r : Raster) (tgt : Option Raster),
      RasterComparison.difference r tgt = some (some a) →
      RasterComparison.compare m r tgt =
        some (RasterComparison.classifyResult m (some a))) := by
  refine ⟨rfl, ?_, ?_, ?_, ?_, ?_, ?_, ?_, ?_, ?_, ?_, ?_, ?_, ?_⟩
  · cases hv : (RasterComparison.changedOf m a).anyTrue <;>
      simp [RasterComparison.classifyResult, RasterComparison.changed, hv]
  · simp [RasterComparison.changedOf]
  · intro th hth; simp [RasterComparison.changedOf, hth]
  · intro th hth; simp [RasterComparison.changedOf, hth]
  · intro th hth; simp [RasterComparison.changedOf, hth]
  · intro th hth; simp [RasterComparison.changedOf, hth]
  · intro th hth; simp [RasterComparison.changedOf, hth]
  · intro th hth heq; simp [RasterComparison.changedOf, hth, heq]
  · intro th hth heq; simp [RasterComparison.changedOf, hth, heq]
  · intro th hth heq; simp [RasterComparison.changedOf, hth, heq]
  · intro th hth heq; simp [RasterComparison.changedOf, hth, heq]
  · intro th hth heq; simp [RasterComparison.changedOf, hth, heq]
  · intro r tgt hd; simp [RasterComparison.compare, hd]

/-- C2 witness: the configuration `M2` on the difference array
`[0, 4]`. -/
theorem C2_metric_verdicts_witness :
    ([0, 4] : List ℚ) ≠ [] ∧
    RasterComparison.changed M2 (some [0, 4]) =
      some (RasterComparison.changedOf M2 [0, 4]) ∧
    ((RasterComparison.classifyResult M2 (some [0, 4])).1 = 1 ↔
      (RasterComparison.changedOf M2 [0, 4]).anyTrue = true) := by
  have h := C2_metric_verdicts M2 [0, 4] (by decide)
  exact ⟨by decide, h.1, h.2.1⟩

/-! ### All-zero difference arrays -/

theorem listMax_all_zero (a : List ℚ) (hz : ∀ x ∈ a, x = 0) :
    listMax a = 0 := by
  have aux : ∀ (xs : List ℚ) (x : ℚ), (∀ y ∈ xs, y = 0) → x = 0 →
      xs.foldl max x = 0 := by
    intro xs
    induction xs with
    | nil => intro x _ hx; exact hx
    | cons y ys ih =>
      intro x hys hx
      have hy : y = 0 := hys y (List.mem_cons_self y ys)
      simp only [List.foldl_cons]
      exact ih (max x y) (fun z hz => hys z (List.mem_cons_of_mem y hz))
        (by rw [hx, hy, max_self])
  cases a with
  | nil => rfl
  | cons x xs =>
    exact aux xs x (fun y hy => hz y (List.mem_cons_of_mem x hy))
      (hz x (List.mem_cons_self x xs))

theorem countLarger_all_zero (a : List ℚ) (c : ℚ) (hz : ∀ x ∈ a, x = 0)
    (hc : 0 ≤ c) : countLarger a c = 0 := by
  rw [countLarger, List.countP_eq_zero]
  intro x hx
  rw [hz x hx]
  simpa using hc

/-- On an all-zero difference array, a configuration whose thresholds
are all nonnegative fires no metric. -/
theorem changedOf_all_zero (m : Metrics) (a : List ℚ)
    (hz : ∀ x ∈ a, x = 0) (hnn : m.allNonneg = true) :
    (RasterComparison.changedOf m a).anyTrue = false := by
  have hsum : a.sum = 0 := List.sum_eq_zero hz
  have hmean : listMean a = 0 := by rw [listMean, hsum, zero_div]
  have hmax : listMax a = 0 := listMax_all_zero a hz
  rw [Metrics.allNonneg] at hnn
  simp only [Bool.and_eq_true] at hnn
  obtain ⟨⟨⟨⟨h1, h2⟩, h3⟩, h4⟩, h5⟩ := hnn
  rw [Verdicts.anyTrue]
  simp only [Bool.or_eq_false_iff, beq_eq_false_iff_ne, ne_eq]
  refine ⟨⟨⟨⟨?_, ?_⟩, ?_⟩, ?_⟩, ?_⟩
  · cases hm : m.mean with
    | none => simp [RasterComparison.changedOf, hm]
    | some th =>
      rw [hm] at h1; simp only [decide_eq_true_eq] at h1
      simp [RasterComparison.changedOf, hm, hmean]
      exact h1
  · cases hm : m.maxima with
    | none => simp [RasterComparison.changedOf, hm]
    | some th =>
      rw [hm] at h2; simp only [decide_eq_true_eq] at h2
      simp [RasterComparison.changedOf, hm, hmax]
      exact h2
  · cases hm : m.sum with
    | none => simp [RasterComparison.changedOf, hm]
    | some th =>
      rw [hm] at h3; simp only [decide_eq_true_eq] at h3
      simp [RasterComparison.changedOf, hm, hsum]
      exact h3
  · cases hm : m.count_larger_than with
    | none => simp [RasterComparison.changedOf, hm]
    | some th =>
      rw [hm] at h4
      simp only [Bool.and_eq_true, decide_eq_true_eq] at h4
      have hcnt : countLarger a th.1 = 0 := countLarger_all_zero a th.1 hz h4.1
      simp [RasterComparison.changedOf, hm, hcnt]
      exact h4.2
  · cases hm : m.percentage_larger_than with
    | none => simp [RasterComparison.changedOf, hm]
    | some th =>
      rw [hm] at h5
      simp only [Bool.and_eq_true, decide_eq_true_eq] at h5
      have hcnt : countLarger a th.1 = 0 := countLarger_all_zero a th.1 hz h5.1
      simp [RasterComparison.changedOf, hm, hcnt]
      exact h5.2

/-- A difference array of identical-outside-nodata rasters is all
zero. -/
theorem diffArrays_all_zero (r t : Raster)
    (hid : pixelIdenticalOutsideNodata r t) :
    ∀ x ∈ diffArrays r t, x = 0 := by
  intro x hx
  rw [diffArrays_eq] at hx
  obtain ⟨p, hp, rfl⟩ := List.mem_map.mp hx
  by_cases hc : (isNodata r.nodataValue p.1 || isNodata t.nodataValue p.2) = true
  · simp [hc]
  · have hc' := Bool.eq_false_iff.mpr hc
    simp [hc', hid p hp hc']

/-- C7 counterexample: reference and target are the same raster
`⟨2, 1, [1, 2], none⟩` (trivially pixel-identical, no nodata), yet
with `metrics.mean = -1` the mean verdict is `true` and the tile is
reported Changed (`1`), so "every configured metric's verdict is
false" does not hold as stated. -/
theorem C7_counterexample_negative_threshold :
    RasterComparison.compare ⟨some (-1), none, none, none, none⟩
        ⟨2, 1, [1, 2], none⟩ (some ⟨2, 1, [1, 2], none⟩) =
      some (1, some ⟨some true, none, none, none, none⟩) := by
  simp [RasterComparison.compare, RasterComparison.difference,
    RasterComparison.classifyResult, RasterComparison.changed,
    RasterComparison.changedOf, Verdicts.anyTrue, isDegenerate,
    diffArrays, nodataMask, zeroWhere, absDiff, isNodata, listMean]

/-- C7 (amended): whenever `difference` returns an array for a pair
that is pixel-identical outside nodata, that array is all zero; and
provided every configured threshold is nonnegative, no metric fires
and the tile is reported Unchanged (`0`). -/
theorem C7_identical_rasters_unchanged (m : Metrics) (r t : Raster)
    (a : List ℚ)
    (hd : RasterComparison.difference r (some t) = some (some a))
    (hid : pixelIdenticalOutsideNodata r t)
    (hnn : m.allNonneg = true) :
    (∀ x ∈ a, x = 0) ∧
    (RasterComparison.changedOf m a).anyTrue = false ∧
    RasterComparison.compare m r (some t) = some (0, none) := by
  have hz : ∀ x ∈ a, x = 0 := by
    by_cases hdeg : (isDegenerate r || isDegenerate t) = true
    · rw [difference_degenerate r t hdeg] at hd
      obtain rfl : ([0] : List ℚ) = a := Option.some.inj (Option.some.inj hd)
      intro x hx
      simpa using hx
    · have hdeg' := Bool.eq_false_iff.mpr hdeg
      simp only [Bool.or_eq_false_iff] at hdeg'
      by_cases hdim : r.xsize = t.xsize ∧ r.ysize = t.ysize
      · rw [difference_eq_dims r t hdeg'.1 hdeg'.2 hdim.1 hdim.2] at hd
        obtain rfl : diffArrays r t = a := Option.some.inj (Option.some.inj hd)
        exact diffArrays_all_zero r t hid
      · rcases Decidable.not_and_iff_or_not.mp hdim with hne | hne
        · rw [difference_mismatch r t hdeg'.1 hdeg'.2 (Or.inl hne)] at hd
          exact absurd hd (by simp)
        · rw [difference_mismatch r t hdeg'.1 hdeg'.2 (Or.inr hne)] at hd
          exact absurd hd (by simp)
  have hv : (RasterComparison.changedOf m a).anyTrue = false :=
    changedOf_all_zero m a hz hnn
  refine ⟨hz, hv, ?_⟩
  simp [RasterComparison.compare, hd, RasterComparison.classifyResult,
    RasterComparison.changed, hv]

/-- C7 witness: a matched 2×1 pair, identical bands `[1, 2]`, the
reference declaring (unused) nodata value 9, classified with the
all-nonnegative configuration `M7`. -/
theorem C7_identical_rasters_unchanged_witness :
    M7.allNonneg = true ∧
    RasterComparison.compare M7 ⟨2, 1, [1, 2], some 9⟩
      (some ⟨2, 1, [1, 2], none⟩) = some (0, none) :=
  ⟨by decide,
    (C7_identical_rasters_unchanged M7 ⟨2, 1, [1, 2], some 9⟩
      ⟨2, 1, [1, 2], none⟩ (diffArrays ⟨2, 1, [1, 2], some 9⟩ ⟨2, 1, [1, 2], none⟩)
      (difference_eq_dims _ _ (by decide) (by decide) rfl rfl)
      (by decide) (by decide)).2.2⟩

/-- C10 counterexample: the degenerate sentinel `[0]` with the
configuration `count_larger_than = (-1, 5)` — a negative threshold is
present, yet the count is 1, `1 > 5` fails, and the tile is reported
Unchanged (`0`), so "a configuration with some negative threshold
reports it Changed" does not hold as stated. -/
theorem C10_counterexample_negative_pair_threshold :
    RasterComparison.compare ⟨none, none, none, some (-1, 5), none⟩
        ⟨1, 1, [42], some 0⟩ (some ⟨1, 1, [0], none⟩) = some (0, none) := by
  simp [RasterComparison.compare, RasterComparison.difference,
    RasterComparison.classifyResult, RasterComparison.changed,
    RasterComparison.changedOf, Verdicts.anyTrue, isDegenerate,
    countLarger, listMean, listMax]

/-- C10 (amended): the 1×1 sentinel array `[0]` goes through the
normal metric path of `compare`: with all-nonnegative thresholds the
tile is Unchanged (`0`), while a negative mean, maxima or sum
threshold reports it Changed (`1`). -/
theorem C10_sentinel_normal_path (m : Metrics) (r t : Raster)
    (hdeg : (isDegenerate r || isDegenerate t) = true) :
    RasterComparison.difference r (some t) = some (some [0]) ∧
    (m.allNonneg = true →
      RasterComparison.compare m r (some t) = some (0, none)) ∧
    (m.hasNegScalar = true →
      (RasterComparison.compare m r (some t)).map (fun q => q.1) = some 1) := by
  have hd := difference_degenerate r t hdeg
  have hz : ∀ x ∈ ([0] : List ℚ), x = 0 := by intro x hx; simpa using hx
  refine ⟨hd, ?_, ?_⟩
  · intro hnn
    have hv := changedOf_all_zero m [0] hz hnn
    simp [RasterComparison.compare, hd, RasterComparison.classifyResult,
      RasterComparison.changed, hv]
  · intro hneg
    have hmean : listMean [0] = 0 := by simp [listMean]
    have hmax : listMax [0] = 0 := rfl
    have hsum : ([0] : List ℚ).sum = 0 := by simp
    have hv : (RasterComparison.changedOf m [0]).anyTrue = true := by
      rw [Metrics.hasNegScalar] at hneg
      simp only [Bool.or_eq_true] at hneg
      rw [Verdicts.anyTrue]
      simp only [Bool.or_eq_true, beq_iff_eq]
      rcases hneg with (h | h) | h
      · cases hm : m.mean with
        | none => rw [hm] at h; exact absurd h (by simp)
        | some th =>
          rw [hm] at h; simp only [decide_eq_true_eq] at h
          refine Or.inl (Or.inl (Or.inl (Or.inl ?_)))
          simp [RasterComparison.changedOf, hm, hmean]
          exact h
      · cases hm : m.maxima with
        | none => rw [hm] at h; exact absurd h (by simp)
        | some th =>
          rw [hm] at h; simp only [decide_eq_true_eq] at h
          refine Or.inl (Or.inl (Or.inl (Or.inr ?_)))
          simp [RasterComparison.changedOf, hm, hmax]
          exact h
      · cases hm : m.sum with
        | none => rw [hm] at h; exact absurd h (by simp)
        | some th =>
          rw [hm] at h; simp only [decide_eq_true_eq] at h
          refine Or.inl (Or.inl (Or.inr ?_))
          simp [RasterComparison.changedOf, hm, hsum]
          exact h
    simp [RasterComparison.compare, hd, RasterComparison.classifyResult,
      RasterComparison.changed, hv]

/-- C10 witness: a 1×1 reference against a 2×2 target; nonnegative
thresholds give Unchanged, a negative mean threshold gives Changed. -/
theorem C10_sentinel_normal_path_witness :
    RasterComparison.compare M10a ⟨1, 1, [7], some 7⟩
      (some ⟨2, 2, [1, 2, 3, 4], none⟩) = some (0, none) ∧
    (RasterComparison.compare M10b ⟨1, 1, [7], some 7⟩
      (some ⟨2, 2, [1, 2, 3, 4], none⟩)).map (fun q => q.1) = some 1 :=
  ⟨(C10_sentinel_normal_path M10a ⟨1, 1, [7], some 7⟩
      ⟨2, 2, [1, 2, 3, 4], none⟩ (by decide)).2.1 (by decide),
   (C10_sentinel_normal_path M10b ⟨1, 1, [7], some 7⟩
      ⟨2, 2, [1, 2, 3, 4], none⟩ (by decide)).2.2 (by decide)⟩

/-! ### Aggregation lemmas -/

theorem aggregateResults_eq (rs : List (Int × Option Verdicts × String)) :
    ∀ acc : AggState, (∀ r ∈ rs, flagOK r.1 = true) →
    aggregateResults acc rs = some
      ⟨acc.counter + rs.countP (fun r => r.1 == 1),
       acc.changedList ++ changedStems rs,
       acc.unmatched ++ unmatchedStems rs⟩ := by
  induction rs with
  | nil => intro acc _; simp [aggregateResults, changedStems, unmatchedStems]
  | cons r rs ih =>
    intro acc hall
    have hr := hall r (List.mem_cons_self r rs)
    have hrs : ∀ x ∈ rs, flagOK x.1 = true :=
      fun x hx => hall x (List.mem_cons_of_mem r hx)
    rw [flagOK] at hr
    simp only [Bool.or_eq_true, beq_iff_eq] at hr
    rcases hr with (h | h) | h <;>
      · rw [aggregateResults, stepRes]
        simp only [h]
        norm_num
        rw [ih _ hrs]
        simp [changedStems, unmatchedStems, List.filter_cons, List.countP_cons, h]
        try omega

theorem aggregateResults_some_flags
    (rs : List (Int × Option Verdicts × String)) :
    ∀ (acc : AggState) (s : AggState), aggregateResults acc rs = some s →
      ∀ r ∈ rs, flagOK r.1 = true := by
  induction rs with
  | nil => intro _ _ _ r hr; exact absurd hr (by simp)
  | cons r rs ih =>
    intro acc s hs x hx
    rw [aggregateResults] at hs
    cases hstep : stepRes acc r with
    | none => rw [hstep] at hs; exact absurd hs (by simp)
    | some acc2 =>
      rw [hstep] at hs
      rcases List.mem_cons.mp hx with rfl | hx'
      · rw [stepRes] at hstep
        by_cases h1 : x.1 = -1
        · simp [flagOK, h1]
        · by_cases h2 : x.1 = 1
          · simp [flagOK, h2]
          · by_cases h3 : x.1 = 0
            · simp [flagOK, h3]
            · rw [if_neg h1, if_neg h2, if_neg h3] at hstep
              exact absurd hstep (by simp)
      · exact ih acc2 s hs x hx'

theorem runAggregate_eq (rs : List (Int × Option Verdicts × String))
    (tOnly : List String) (hall : ∀ r ∈ rs, flagOK r.1 = true) :
    runAggregate rs tOnly = some
      ⟨rs.countP (fun r => r.1 == 1) + tOnly.length,
       changedStems rs ++ tOnly, unmatchedStems rs⟩ := by
  rw [runAggregate, aggregateResults_eq rs ⟨0, [], []⟩ hall]
  simp

theorem runAggregate_some_flags (rs : List (Int × Option Verdicts × String))
    (tOnly : List String) (s : AggState) (h : runAggregate rs tOnly = some s) :
    ∀ r ∈ rs, flagOK r.1 = true := by
  rw [runAggregate] at h
  cases hagg : aggregateResults ⟨0, [], []⟩ rs with
  | none => rw [hagg] at h; exact absurd h (by simp)
  | some acc => exact aggregateResults_some_flags rs ⟨0, [], []⟩ acc hagg

/-- C5: the aggregation over delivered worker results counts exactly
the metric-Changed results plus the target-only tiles, and both the
count and the multiset of stems written to the change list are the
same under any permutation of the delivery order. -/
theorem C5_aggregation_order_invariant
    (rs1 rs2 : List (Int × Option Verdicts × String)) (tOnly : List String)
    (s1 s2 : AggState) (hperm : rs1.Perm rs2)
    (h1 : runAggregate rs1 tOnly = some s1)
    (h2 : runAggregate rs2 tOnly = some s2) :
    s1.counter = rs1.countP (fun r => r.1 == 1) + tOnly.length ∧
    s2.counter = s1.counter ∧
    (s2.changedList : Multiset String) = (s1.changedList : Multiset String) := by
  have hall1 := runAggregate_some_flags rs1 tOnly s1 h1
  have hall2 : ∀ r ∈ rs2, flagOK r.1 = true :=
    fun r hr => hall1 r (hperm.mem_iff.mpr hr)
  have e1 := (h1.symm.trans (runAggregate_eq rs1 tOnly hall1))
  have e2 := (h2.symm.trans (runAggregate_eq rs2 tOnly hall2))
  obtain rfl := Option.some.inj e1
  obtain rfl := Option.some.inj e2
  refine ⟨rfl, ?_, ?_⟩
  · simp only
    rw [hperm.countP_eq]
  · simp only
    rw [Multiset.coe_eq_coe]
    exact (((hperm.filter _).map _).append_right tOnly).symm

/-- C3: a pair whose target file does not exist yields the no-match
sentinel from `difference`, `changed` propagates `None` without
evaluating any metric, the worker task reports flag `-1` with the
tile's stem, and the collection loop files that stem under the
unmatched warnings, leaving the counter and the change list
untouched. -/
theorem C3_missing_target_unmatched (m : Metrics) (w : World) (p : String)
    (hp : w.tgtRaster p = none) :
    RasterComparison.difference (w.refRaster p) (w.tgtRaster p) = some none ∧
    RasterComparison.changed m none = none ∧
    processTile m w p = some (-1, none, w.stem p) ∧
    (∀ (acc : AggState) (v : Option Verdicts) (s : String),
      stepRes acc (-1, v, s) =
        some ⟨acc.counter, acc.changedList, acc.unmatched ++ [s]⟩) := by
  refine ⟨by rw [hp]; rfl, rfl, ?_, ?_⟩
  · rw [processTile, hp]; rfl
  · intro acc v s; rfl

/-- C3 witness: the single tile of `W3` comes back Unmatched and is
filed under the warnings only. -/
theorem C3_missing_target_unmatched_witness :
    RasterComparison.difference (W3.refRaster pA) (W3.tgtRaster pA) = some none ∧
    processTile Mnil W3 pA = some (-1, none, W3.stem pA) ∧
    stepRes ⟨0, [], []⟩ (-1, none, W3.stem pA) =
      some ⟨0, [], [] ++ [W3.stem pA]⟩ := by
  have h := C3_missing_target_unmatched Mnil W3 pA rfl
  exact ⟨h.1, h.2.2.1, h.2.2.2 ⟨0, [], []⟩ none (W3.stem pA)⟩

/-- C4: a target tile whose relative path has no reference counterpart
lands in the target-only list and its stem is written to the change
list of any completed run — with the rasters of the world universally
quantified, so no differencing or classification of that tile can be
involved. -/
theorem C4_target_only_changed (m : Metrics) (w : World) (p : String)
    (s : AggState × Nat) (hmem : p ∈ w.tgtPaths) (hnot : p ∉ w.refPaths)
    (hrun : multi_run m w = some s) :
    w.stem p ∈ targetsOnlyStems w ∧ w.stem p ∈ s.1.changedList := by
  have hto : w.stem p ∈ targetsOnlyStems w := by
    rw [targetsOnlyStems]
    exact List.mem_map_of_mem _ (List.mem_filter.mpr ⟨hmem, by simpa using hnot⟩)
  refine ⟨hto, ?_⟩
  rw [multi_run] at hrun
  cases hpa : processAll m w w.refPaths with
  | none => rw [hpa] at hrun; exact absurd hrun (by simp)
  | some rs =>
    simp only [hpa] at hrun
    cases hra : runAggregate rs (targetsOnlyStems w) with
    | none => simp only [hra] at hrun; exact absurd hrun (by simp)
    | some acc =>
      simp only [hra] at hrun
      obtain rfl : (acc, w.refPaths.length) = s := Option.some.inj hrun
      rw [runAggregate] at hra
      cases hagg : aggregateResults ⟨0, [], []⟩ rs with
      | none => rw [hagg] at hra; exact absurd hra (by simp)
      | some acc0 =>
        rw [hagg] at hra
        obtain rfl := Option.some.inj hra
        exact List.mem_append_right _ hto

/-- C4 witness: in `W4` the target-only tile `pB` appears on the
change list of the completed run `S4`. -/
theorem C4_target_only_changed_witness :
    W4.stem pB ∈ targetsOnlyStems W4 ∧ W4.stem pB ∈ S4.1.changedList :=
  C4_target_only_changed Mnil W4 pB S4 (by decide) (by decide) (by decide)

/-- C5 witness: the two delivery orders of the same three outcomes,
with one target-only tile, give the same count and the same change
list. -/
theorem C5_aggregation_order_invariant_witness :
    (⟨2, [pA, pD], [pB]⟩ : AggState).counter =
      RS1.countP (fun r => r.1 == 1) + [pD].length ∧
    (⟨2, [pA, pD], [pB]⟩ : AggState).counter =
      (⟨2, [pA, pD], [pB]⟩ : AggState).counter ∧
    ((⟨2, [pA, pD], [pB]⟩ : AggState).changedList : Multiset String) =
      ((⟨2, [pA, pD], [pB]⟩ : AggState).changedList : Multiset String) :=
  C5_aggregation_order_invariant RS1 RS2 [pD] ⟨2, [pA, pD], [pB]⟩
    ⟨2, [pA, pD], [pB]⟩ (by decide) (by decide) (by decide)

theorem difference_isSome_of_noMismatch (r : Raster) (t : Option Raster)
    (h : noMismatch r t = true) :
    (RasterComparison.difference r t).isSome = true := by
  cases t with
  | none => rfl
  | some t =>
    rw [noMismatch] at h
    simp only [Bool.or_eq_true, Bool.and_eq_true, beq_iff_eq] at h
    rcases h with (h | h) | h
    · rw [difference_degenerate r t (by simp [h])]; rfl
    · rw [difference_degenerate r t (by simp [h])]; rfl
    · by_cases hdeg : (isDegenerate r || isDegenerate t) = true
      · rw [difference_degenerate r t hdeg]; rfl
      · have hdeg' := Bool.eq_false_iff.mpr hdeg
        simp only [Bool.or_eq_false_iff] at hdeg'
        rw [difference_eq_dims r t hdeg'.1 hdeg'.2 h.1 h.2]; rfl

theorem compare_flagOK (m : Metrics) (r : Raster) (t : Option Raster)
    (q : Int × Option Verdicts)
    (h : RasterComparison.compare m r t = some q) : flagOK q.1 = true := by
  rw [RasterComparison.compare] at h
  cases hd : RasterComparison.difference r t with
  | none => rw [hd] at h; exact absurd h (by simp)
  | some d =>
    rw [hd] at h
    obtain rfl : RasterComparison.classifyResult m d = q := Option.some.inj h
    cases d with
    | none => rfl
    | some a =>
      rw [RasterComparison.classifyResult]
      cases hv : (RasterComparison.changedOf m a).anyTrue <;>
        simp [RasterComparison.changed, hv, flagOK]

theorem processTile_eq (m : Metrics) (w : World) (p : String)
    (d : Option (List ℚ))
    (hd : RasterComparison.difference (w.refRaster p) (w.tgtRaster p) = some d) :
    processTile m w p = some ((RasterComparison.classifyResult m d).1,
      (RasterComparison.classifyResult m d).2, w.stem p) := by
  rw [processTile, RasterComparison.compare, hd]
  rfl

theorem processAll_isSome (m : Metrics) (w : World) :
    ∀ ps : List String,
    (∀ p ∈ ps, noMismatch (w.refRaster p) (w.tgtRaster p) = true) →
    ∃ rs, processAll m w ps = some rs ∧ ∀ r ∈ rs, flagOK r.1 = true := by
  intro ps
  induction ps with
  | nil => intro _; exact ⟨[], rfl, by simp⟩
  | cons p ps ih =>
    intro hall
    obtain ⟨rs, hrs, hflags⟩ := ih
      (fun x hx => hall x (List.mem_cons_of_mem p hx))
    have hs := difference_isSome_of_noMismatch (w.refRaster p) (w.tgtRaster p)
      (hall p (List.mem_cons_self p ps))
    obtain ⟨d, hd⟩ := Option.isSome_iff_exists.mp hs
    have hpt := processTile_eq m w p d hd
    refine ⟨((RasterComparison.classifyResult m d).1,
      (RasterComparison.classifyResult m d).2, w.stem p) :: rs, ?_, ?_⟩
    · rw [processAll, hpt, hrs]
    · intro r hr
      rcases List.mem_cons.mp hr with rfl | hr'
      · exact compare_flagOK m (w.refRaster p) (w.tgtRaster p) _
          (by rw [RasterComparison.compare, hd]; rfl)
      · exact hflags r hr'

theorem processAll_none (m : Metrics) (w : World) (p : String) :
    ∀ ps : List String, p ∈ ps →
    RasterComparison.difference (w.refRaster p) (w.tgtRaster p) = none →
    processAll m w ps = none := by
  intro ps
  induction ps with
  | nil => intro h _; exact absurd h (by simp)
  | cons q ps ih =>
    intro hmem hd
    rcases List.mem_cons.mp hmem with rfl | hmem'
    · have hpt : processTile m w p = none := by
        rw [processTile, RasterComparison.compare, hd]; rfl
      rw [processAll, hpt]
    · rw [processAll, ih hmem' hd]
      cases processTile m w q <;> rfl

/-- C6: a matched, non-degenerate pair of mismatching dimensions makes
`difference` fail its assertion (no value is returned), and one such
pair anywhere in a run aborts the whole run; a run all of whose pairs
are missing-target, degenerate, or dimension-matched completes with a
summary. -/
theorem C6_dimension_mismatch_fatal :
    (∀ r t : Raster, isDegenerate r = false → isDegenerate t = false →
      (r.xsize ≠ t.xsize ∨ r.ysize ≠ t.ysize) →
      RasterComparison.difference r (some t) = none) ∧
    (∀ (m : Metrics) (w : World) (p : String), p ∈ w.refPaths →
      RasterComparison.difference (w.refRaster p) (w.tgtRaster p) = none →
      multi_run m w = none) ∧
    (∀ (m : Metrics) (w : World),
      (∀ p ∈ w.refPaths, noMismatch (w.refRaster p) (w.tgtRaster p) = true) →
      (multi_run m w).isSome = true) := by
  refine ⟨difference_mismatch, ?_, ?_⟩
  · intro m w p hmem hd
    rw [multi_run, processAll_none m w p w.refPaths hmem hd]
  · intro m w hall
    obtain ⟨rs, hrs, hflags⟩ := processAll_isSome m w w.refPaths hall
    rw [multi_run]
    simp only [hrs, runAggregate_eq rs (targetsOnlyStems w) hflags]
    rfl

/-- C6 witness: the mismatched pair aborts `difference` and the run;
the matched world completes. -/
theorem C6_dimension_mismatch_fatal_witness :
    RasterComparison.difference RA (some RB) = none ∧
    multi_run Mnil WBAD = none ∧
    (multi_run Mnil WOK).isSome = true :=
  ⟨C6_dimension_mismatch_fatal.1 RA RB (by decide) (by decide)
      (Or.inl (by decide)),
   C6_dimension_mismatch_fatal.2.1 Mnil WBAD pA (by decide) (by decide),
   C6_dimension_mismatch_fatal.2.2 Mnil WOK (by decide)⟩
